import Mathlib

/-!
Verification of the role-mapping (casbin enforcement) layer of the
LanshanTeam/common-rs repository: the static middleware
(src/layer/role_mapping/mod.rs), the distributed middleware and its policy
synchronizer (src/layer/role_mapping/distribute.rs), and the event-source
adapters (src/layer/role_mapping/source.rs).

The embedding is shallow: requests are records of the fields the layer
inspects; the casbin engine (an external crate) is an abstract function
returning allow/deny or an error; async code is modelled by explicit poll
state machines that also emit a trace of the lock, enforcement, logging and
inner-future events the Rust body performs, in program order.
-/

deriving instance DecidableEq for Except

namespace CommonRs

/-- Poll result of a Rust future: Ready(out) or Pending. -/
inductive Poll (α : Type) : Type
  | ready (out : α)
  | pending
deriving DecidableEq, Repr

/-- The parts of an http::Request the role-mapping layer inspects:
the extension of type I viewed through AsRef of str (None when no identity
was attached upstream), the URI path, and the method token. -/
structure Request where
  extensions : Option String
  uriPath : String
  method : String
deriving DecidableEq, Repr

/-- An http::Response as the layer builds it: a status code and a body. -/
structure Response (β : Type) where
  status : Nat
  body : β
deriving DecidableEq, Repr

/-- Log entries emitted by the layer (tracing calls in the source). -/
inductive LogEntry : Type
  | warnEnforcerAbnormal (err : String)
  | warnFailedHandle (kind : String)
  | errHandleEvent (err : String)
  | traceUpdated
deriving DecidableEq, Repr

/-- The enforce free function of src/layer/role_mapping/mod.rs: derives
(sub, obj, act) from the request, consults the enforcer, and either runs the
inner service or short-circuits with a 403 or 500 response.  The inner
service is the awaited result of its boxed future; the enforcer is the
abstract casbin CoreApi enforce call.  The second component is the list of
log lines the body emits. -/
def enforce {ε β : Type} [Inhabited β] (inner : Request → Except ε (Response β)) (req : Request)
    (enforcer : String → String → String → Except String Bool) :
    Except ε (Response β) × List LogEntry :=
  let sub := (req.extensions.map fun s => s).getD ""
  let obj := req.uriPath
  let act := req.method
  match enforcer sub obj act with
  | Except.ok true => (inner req, [])
  | Except.ok false =>
      (Except.ok { status := 403, body := default }, [])
  | Except.error err =>
      (Except.ok { status := 500, body := default }, [LogEntry.warnEnforcerAbnormal err])

/-- Subject as the specification words it: the identity value attached to the
request extensions, or the empty string if no identity is attached. -/
def specSubject (req : Request) : String :=
  req.extensions.getD ""

/-- Events observable during one poll of the distributed ResponseFuture and
during DistributeRoleMapping::call: read-guard acquisition and release,
an enforce call with its arguments, a poll of the inner future, the eager
invocation of the inner service's call, and the warn log on engine error. -/
inductive PollEvent : Type
  | acquireRead
  | enforceCall (sub obj act : String)
  | innerPoll
  | releaseRead
  | innerCall
  | warnAbnormal (err : String)
deriving DecidableEq, Repr

/-- True exactly on enforceCall events. -/
def PollEvent.isEnforceCall : PollEvent → Bool
  | PollEvent.enforceCall _ _ _ => true
  | _ => false

/-- State of the shared Arc-RwLock enforcer as one poll observes it: whether
a writer currently holds the lock (making read acquisition return Pending),
and the engine's current enforce behaviour. -/
structure DistState : Type where
  writerHeld : Bool
  engine : String → String → String → Except String Bool

/-- The mutable state of a ResponseFuture between polls: the (sub, obj, act)
arguments captured at call time and how many times the inner future has been
polled so far. -/
structure FutState : Type where
  arguments : String × String × String
  innerPolled : Nat
deriving DecidableEq, Repr

/-- DistributeRoleMapping::call of src/layer/role_mapping/distribute.rs:
derives the argument triple from the request and constructs the
ResponseFuture, eagerly invoking the inner service's call to obtain the
stored future (the innerCall event). -/
def DistributeRoleMapping.call (req : Request) : FutState × List PollEvent :=
  let sub := (req.extensions.map fun s => s).getD ""
  let obj := req.uriPath
  let act := req.method
  ({ arguments := (sub, obj, act), innerPolled := 0 }, [PollEvent.innerCall])

/-- One invocation of ResponseFuture::poll
(src/layer/role_mapping/distribute.rs).  The body first polls read-guard
acquisition (Pending while a writer holds the lock, with no guard acquired),
then calls enforce with the stored arguments, and on Ok(true) polls the
stored inner future; all locals, the guard included, are dropped when the
invocation returns, which the trace records as releaseRead.  The inner
future's behaviour is a function of how many times it has been polled. -/
def pollResponseFuture {ε β : Type} [Inhabited β] (st : DistState)
    (innerFut : Nat → Poll (Except ε (Response β))) (fs : FutState) :
    Poll (Except ε (Response β)) × FutState × List PollEvent :=
  if st.writerHeld then
    (Poll.pending, fs, [])
  else
    let s := fs.arguments.1
    let o := fs.arguments.2.1
    let a := fs.arguments.2.2
    match st.engine s o a with
    | Except.ok true =>
      match innerFut fs.innerPolled with
      | Poll.ready out =>
          (Poll.ready out, { fs with innerPolled := fs.innerPolled + 1 },
           [PollEvent.acquireRead, PollEvent.enforceCall s o a,
            PollEvent.innerPoll, PollEvent.releaseRead])
      | Poll.pending =>
          (Poll.pending, { fs with innerPolled := fs.innerPolled + 1 },
           [PollEvent.acquireRead, PollEvent.enforceCall s o a,
            PollEvent.innerPoll, PollEvent.releaseRead])
    | Except.ok false =>
        (Poll.ready (Except.ok { status := 403, body := default }), fs,
         [PollEvent.acquireRead, PollEvent.enforceCall s o a, PollEvent.releaseRead])
    | Except.error err =>
        (Poll.ready (Except.ok { status := 500, body := default }), fs,
         [PollEvent.acquireRead, PollEvent.enforceCall s o a,
          PollEvent.warnAbnormal err, PollEvent.releaseRead])

/-- Drive a ResponseFuture to completion under a schedule of lock/engine
states, one state per runtime poll (the synchronizer may change the engine
between polls).  Returns the concatenated event trace and the output, none
when the schedule is exhausted while still pending. -/
def runPolls {ε β : Type} [Inhabited β] (innerFut : Nat → Poll (Except ε (Response β))) :
    List DistState → FutState → List PollEvent × Option (Except ε (Response β))
  | [], _ => ([], none)
  | st :: rest, fs =>
    match pollResponseFuture st innerFut fs with
    | (Poll.ready out, _, tr) => (tr, some out)
    | (Poll.pending, fs1, tr) =>
      let w := runPolls innerFut rest fs1
      (tr ++ w.1, w.2)

/-- The EventData enum of src/layer/role_mapping/distribute.rs, the wire
mutation events; NIL is the sentinel kept for a failing deserialization. -/
inductive EventData : Type
  | AddPolicy (p : List String)
  | AddGroupingPolicy (p : List String)
  | AddPolicies (p : List (List String))
  | AddGroupingPolicies (p : List (List String))
  | RemovePolicy (p : List String)
  | RemoveGroupingPolicy (p : List String)
  | RemovePolicies (p : List (List String))
  | RemoveGroupingPolicies (p : List (List String))
  | RemoveFilteredPolicy (i : Nat) (p : List String)
  | RemoveFilteredGroupingPolicy (i : Nat) (p : List String)
  | NIL
deriving DecidableEq, Repr

instance : Inhabited EventData := ⟨EventData.NIL⟩

/-- EventData::kind of the source: the variant name used in log lines. -/
def EventData.kind : EventData → String
  | EventData.AddPolicy _ => "AddPolicy"
  | EventData.AddGroupingPolicy _ => "AddGroupingPolicy"
  | EventData.AddPolicies _ => "AddPolicies"
  | EventData.AddGroupingPolicies _ => "AddGroupingPolicies"
  | EventData.RemovePolicy _ => "RemovePolicy"
  | EventData.RemoveGroupingPolicy _ => "RemoveGroupingPolicy"
  | EventData.RemovePolicies _ => "RemovePolicies"
  | EventData.RemoveGroupingPolicies _ => "RemoveGroupingPolicies"
  | EventData.RemoveFilteredPolicy _ _ => "RemoveFilteredPolicy"
  | EventData.RemoveFilteredGroupingPolicy _ _ => "RemoveFilteredGroupingPolicy"
  | EventData.NIL => "NIL"

/-- The casbin MgmtApi mutation operations the synchronizer invokes on the
engine, one per match arm of listen_source. -/
inductive EngineOp : Type
  | addPolicy (p : List String)
  | addGroupingPolicy (p : List String)
  | addPolicies (p : List (List String))
  | addGroupingPolicies (p : List (List String))
  | removePolicy (p : List String)
  | removeGroupingPolicy (p : List String)
  | removePolicies (p : List (List String))
  | removeGroupingPolicies (p : List (List String))
  | removeFilteredPolicy (i : Nat) (p : List String)
  | removeFilteredGroupingPolicy (i : Nat) (p : List String)
deriving DecidableEq, Repr

/-- The dispatch table of the match in listen_source: which engine operation
each event variant invokes; the NIL arm invokes none and yields Ok(true). -/
def dispatch : EventData → Option EngineOp
  | EventData.AddPolicy p => some (EngineOp.addPolicy p)
  | EventData.AddGroupingPolicy p => some (EngineOp.addGroupingPolicy p)
  | EventData.AddPolicies p => some (EngineOp.addPolicies p)
  | EventData.AddGroupingPolicies p => some (EngineOp.addGroupingPolicies p)
  | EventData.RemovePolicy p => some (EngineOp.removePolicy p)
  | EventData.RemoveGroupingPolicy p => some (EngineOp.removeGroupingPolicy p)
  | EventData.RemovePolicies p => some (EngineOp.removePolicies p)
  | EventData.RemoveGroupingPolicies p => some (EngineOp.removeGroupingPolicies p)
  | EventData.RemoveFilteredPolicy i p => some (EngineOp.removeFilteredPolicy i p)
  | EventData.RemoveFilteredGroupingPolicy i p => some (EngineOp.removeFilteredGroupingPolicy i p)
  | EventData.NIL => none

/-- Applying one event to the engine (an abstract state with a fallible
apply function, since casbin is an external crate): the matching operation
is invoked, the NIL arm applies nothing and yields Ok(true). -/
def applyEvent {σ : Type} (apply : σ → EngineOp → σ × Except String Bool) (s : σ)
    (d : EventData) : σ × Except String Bool :=
  match dispatch d with
  | some op => apply s op
  | none => (s, Except.ok true)

/-- The log line the match on res in listen_source emits for one event. -/
def logResult (kind : String) : Except String Bool → LogEntry
  | Except.ok false => LogEntry.warnFailedHandle kind
  | Except.error e => LogEntry.errHandleEvent e
  | Except.ok true => LogEntry.traceUpdated

/-- Events observable in the synchronizer loop: write-guard acquisition and
release and the engine operation applied between them. -/
inductive SyncEvent : Type
  | acquireWrite
  | applyOp (op : EngineOp)
  | releaseWrite
deriving DecidableEq, Repr

/-- The engine operations applied in a synchronizer trace, in order. -/
def opsOf (tr : List SyncEvent) : List EngineOp :=
  tr.filterMap fun e =>
    match e with
    | SyncEvent.applyOp op => some op
    | _ => none

/-- Result of running the synchronizer loop over a (finite prefix of the)
event source: final engine state, the event trace, and the log lines. -/
structure SyncResult (σ : Type) : Type where
  final : σ
  trace : List SyncEvent
  logs : List LogEntry

/-- The listen_source loop of src/layer/role_mapping/distribute.rs over a
finite source sequence: for each event in order it takes the write guard,
dispatches the matching engine mutation, logs the outcome (warn on
Ok(false), error on Err, trace otherwise) and continues unconditionally;
the loop ends only when the source sequence does. -/
def listenSource {σ : Type} (apply : σ → EngineOp → σ × Except String Bool) (s : σ) :
    List EventData → SyncResult σ
  | [] => { final := s, trace := [], logs := [] }
  | d :: rest =>
    let kind := d.kind
    let step := applyEvent apply s d
    let w := listenSource apply step.1 rest
    { final := w.final
      trace := SyncEvent.acquireWrite ::
        (((dispatch d).toList.map SyncEvent.applyOp) ++ (SyncEvent.releaseWrite :: w.trace))
      logs := logResult kind step.2 :: w.logs }

/-- A redis pub/sub message as the adapter sees it: its payload bytes
(abstract payload type). -/
structure RedisMsg (π : Type) : Type where
  payload : π
deriving DecidableEq, Repr

/-- Decode a payload as the adapters do: serde-decode (the external decoder
is a parameter) with fallback to NIL on failure. -/
def decodeOrNil {π : Type} (decode : π → Option EventData) (payload : π) : EventData :=
  match decode payload with
  | some e => e
  | none => EventData.NIL

/-- The redis_source adapter of src/layer/role_mapping/source.rs after
subscription: the on-message stream mapped per message to the decoded event,
with decode failure yielding NIL; modelled on a finite prefix of the
message stream. -/
def redis_source {π : Type} (decode : π → Option EventData) (msgs : List (RedisMsg π)) :
    List EventData :=
  msgs.map fun msg => decodeOrNil decode msg.payload

/-- An amqprs ConsumerMessage as AMQPSource sees it: an optional content
body (abstract payload type). -/
structure ConsumerMessage (π : Type) : Type where
  content : Option π
deriving DecidableEq, Repr

/-- The ready branch of AMQPSource::poll_next: given what poll_recv yielded
(None when the consumer channel closed), and_then into the content and map
the decode-or-NIL over it; a none result is Poll::Ready(None), stream end. -/
def AMQPSource.pollNext {π : Type} (decode : π → Option EventData)
    (msg : Option (ConsumerMessage π)) : Option EventData :=
  (msg.bind fun m => m.content).map fun c => decodeOrNil decode c

/-- The event sequence a consumer of AMQPSource observes over a finite
prefix of received messages: items until the first poll_next that returns
stream end. -/
def amqpDrain {π : Type} (decode : π → Option EventData) :
    List (ConsumerMessage π) → List EventData
  | [] => []
  | m :: rest =>
    match AMQPSource.pollNext decode (some m) with
    | none => []
    | some e => e :: amqpDrain decode rest

/-- The event trace of one ResponseFuture::poll invocation. -/
def pollTrace {ε β : Type} [Inhabited β] (st : DistState)
    (innerFut : Nat → Poll (Except ε (Response β))) (fs : FutState) : List PollEvent :=
  (pollResponseFuture st innerFut fs).2.2

/-- True exactly on the acquireRead event. -/
def PollEvent.isAcquireRead : PollEvent → Bool
  | PollEvent.acquireRead => true
  | _ => false

/-- True exactly on the releaseRead event. -/
def PollEvent.isReleaseRead : PollEvent → Bool
  | PollEvent.releaseRead => true
  | _ => false

/-! Helper lemmas about the synchronizer loop, shared by several claims. -/

theorem listenSource_trace_eq {σ : Type} (apply : σ → EngineOp → σ × Except String Bool)
    (s : σ) (events : List EventData) :
    (listenSource apply s events).trace =
      events.flatMap fun d =>
        SyncEvent.acquireWrite ::
          (((dispatch d).toList.map SyncEvent.applyOp) ++ [SyncEvent.releaseWrite]) := by
  induction events generalizing s with
  | nil => rfl
  | cons d rest ih =>
    simp [listenSource, ih, List.flatMap_cons]

theorem opsOf_append (a b : List SyncEvent) : opsOf (a ++ b) = opsOf a ++ opsOf b := by
  simp [opsOf, List.filterMap_append]

theorem listenSource_ops {σ : Type} (apply : σ → EngineOp → σ × Except String Bool)
    (s : σ) (events : List EventData) :
    opsOf (listenSource apply s events).trace = events.filterMap dispatch := by
  induction events generalizing s with
  | nil => rfl
  | cons d rest ih =>
    cases h : dispatch d with
    | none =>
      simpa [listenSource, opsOf, List.filterMap_cons, List.filterMap_append, h] using
        ih (applyEvent apply s d).1
    | some op =>
      simpa [listenSource, opsOf, List.filterMap_cons, List.filterMap_append, h] using
        ih (applyEvent apply s d).1

theorem listenSource_final {σ : Type} (apply : σ → EngineOp → σ × Except String Bool)
    (s : σ) (events : List EventData) :
    (listenSource apply s events).final =
      (events.filterMap dispatch).foldl (fun t op => (apply t op).1) s := by
  induction events generalizing s with
  | nil => rfl
  | cons d rest ih =>
    cases h : dispatch d with
    | none =>
      simp [listenSource, applyEvent, h, List.filterMap_cons, ih]
    | some op =>
      simp [listenSource, applyEvent, h, List.filterMap_cons, ih]

theorem listenSource_logs_length {σ : Type} (apply : σ → EngineOp → σ × Except String Bool)
    (s : σ) (events : List EventData) :
    (listenSource apply s events).logs.length = events.length := by
  induction events generalizing s with
  | nil => rfl
  | cons d rest ih => simp [listenSource, ih]

/-- C1 (counterexample): at the concrete request GET /admin with no attached
identity and an engine denying every triple, the distributed middleware does
return the 403 response with a default body, but the inner service's call is
invoked at request time (the call trace is [innerCall], recording
fut = self.inner.call(req) in DistributeRoleMapping::call), so the claim
that the inner handler is never invoked on a denied request is false as
stated for the distributed variant. -/
theorem c1_counterexample :
    (DistributeRoleMapping.call
        { extensions := none, uriPath := "/admin", method := "GET" }).2 =
      [PollEvent.innerCall] ∧
    (pollResponseFuture (DistState.mk false fun _ _ _ => Except.ok false)
        (fun _ => (Poll.pending : Poll (Except String (Response Nat))))
        (DistributeRoleMapping.call
          { extensions := none, uriPath := "/admin", method := "GET" }).1).1 =
      Poll.ready (Except.ok { status := 403, body := 0 }) := by
  constructor
  · rfl
  · decide

/-- C1 (amended): for every request whose enforcement triple the engine
denies, both middleware variants produce the 403 response with a default
body; the static variant never invokes the inner handler (its output is the
same for every inner handler and never the inner handler's output), and the
distributed variant, which has already invoked the inner service's call
eagerly to build its future, never polls that future on the denial path
(the future state is returned unchanged and the poll trace contains no
innerPoll event). -/
theorem c1_deny_403 {ε β : Type} [Inhabited β] (req : Request)
    (eng : String → String → String → Except String Bool)
    (st : DistState) (innerFut : Nat → Poll (Except ε (Response β))) :
    (eng (specSubject req) req.uriPath req.method = Except.ok false →
      ∀ inner : Request → Except ε (Response β),
        enforce inner req eng = (Except.ok { status := 403, body := default }, [])) ∧
    (st.writerHeld = false →
      st.engine (specSubject req) req.uriPath req.method = Except.ok false →
      pollResponseFuture st innerFut (DistributeRoleMapping.call req).1 =
        (Poll.ready (Except.ok { status := 403, body := default }),
          (DistributeRoleMapping.call req).1,
          [PollEvent.acquireRead,
           PollEvent.enforceCall (specSubject req) req.uriPath req.method,
           PollEvent.releaseRead])) := by
  constructor
  · intro h inner
    cases hx : req.extensions <;>
      simp only [specSubject, hx, Option.getD_some, Option.getD_none] at h <;>
      simp [enforce, hx, h]
  · intro hw h
    cases hx : req.extensions <;>
      simp only [specSubject, hx, Option.getD_some, Option.getD_none] at h <;>
      simp [pollResponseFuture, DistributeRoleMapping.call, specSubject, hx, hw, h]

/-- C1 (witness for the amended theorem): the static middleware at the
concrete denied request GET /admin with no identity returns the 403
response with default body for a concrete inner handler. -/
theorem c1_deny_403_witness :
    enforce (fun _ => Except.ok { status := 200, body := (7 : Nat) })
        { extensions := none, uriPath := "/admin", method := "GET" }
        (fun _ _ _ => Except.ok false) =
      ((Except.ok { status := 403, body := 0 } : Except String (Response Nat)),
        ([] : List LogEntry)) :=
  (c1_deny_403 { extensions := none, uriPath := "/admin", method := "GET" }
      (fun _ _ _ => Except.ok false)
      (DistState.mk false fun _ _ _ => Except.ok false)
      (fun _ => (Poll.pending : Poll (Except String (Response Nat))))).1 rfl _

/-- C2 (counterexample): at a concrete Allow-path poll (lock free, engine
allowing, inner future pending) the poll trace is
[acquireRead, enforceCall, innerPoll, releaseRead]: the inner future is
polled strictly before the read guard's release event, so the claim that
the guard is released before the inner handler's future is polled is false
as stated. -/
theorem c2_counterexample :
    pollTrace (DistState.mk false fun _ _ _ => Except.ok true)
        (fun _ => (Poll.pending : Poll (Except String (Response Nat))))
        { arguments := ("alice", "/books", "GET"), innerPolled := 0 } =
      [PollEvent.acquireRead, PollEvent.enforceCall "alice" "/books" "GET",
       PollEvent.innerPoll, PollEvent.releaseRead] ∧
    (pollTrace (DistState.mk false fun _ _ _ => Except.ok true)
        (fun _ => (Poll.pending : Poll (Except String (Response Nat))))
        { arguments := ("alice", "/books", "GET"), innerPolled := 0 }).indexOf
        PollEvent.innerPoll <
      (pollTrace (DistState.mk false fun _ _ _ => Except.ok true)
        (fun _ => (Poll.pending : Poll (Except String (Response Nat))))
        { arguments := ("alice", "/books", "GET"), innerPolled := 0 }).indexOf
        PollEvent.releaseRead := by
  decide

/-- C2 (amended): the read guard is not released before the inner future is
polled — on the Allow path it is held while the inner future is polled
synchronously — but every poll invocation releases the guard before it
returns: in every poll trace the acquire and release counts agree, and a
nonempty trace ends with the release event, so the guard is never held
while the task is suspended (in particular not across a Pending return
while awaiting the inner handler). -/
theorem c2_guard_released {ε β : Type} [Inhabited β] (st : DistState)
    (innerFut : Nat → Poll (Except ε (Response β))) (fs : FutState) :
    (pollTrace st innerFut fs).countP PollEvent.isAcquireRead =
      (pollTrace st innerFut fs).countP PollEvent.isReleaseRead ∧
    (pollTrace st innerFut fs ≠ [] →
      (pollTrace st innerFut fs).getLast? = some PollEvent.releaseRead) := by
  unfold pollTrace pollResponseFuture
  by_cases hw : st.writerHeld
  · simp [hw]
  · simp only [hw, if_neg]
    cases st.engine fs.arguments.1 fs.arguments.2.1 fs.arguments.2.2 with
    | ok b =>
      cases b with
      | true =>
        cases innerFut fs.innerPolled <;>
          simp [List.countP_cons, PollEvent.isAcquireRead, PollEvent.isReleaseRead]
      | false =>
        simp [List.countP_cons, PollEvent.isAcquireRead, PollEvent.isReleaseRead]
    | error err =>
      simp [List.countP_cons, PollEvent.isAcquireRead, PollEvent.isReleaseRead]

/-- C2 (witness for the amended theorem): at a concrete Allow-path poll the
trace's acquire and release counts agree and the trace ends with the
release event. -/
theorem c2_guard_released_witness :
    (pollTrace (DistState.mk false fun _ _ _ => Except.ok true)
        (fun _ => (Poll.pending : Poll (Except String (Response Nat))))
        { arguments := ("alice", "/books", "GET"), innerPolled := 0 }).getLast? =
      some PollEvent.releaseRead :=
  (c2_guard_released (DistState.mk false fun _ _ _ => Except.ok true)
      (fun _ => (Poll.pending : Poll (Except String (Response Nat))))
      { arguments := ("alice", "/books", "GET"), innerPolled := 0 }).2 (by decide)

/-- C3: for every request whose enforcement triple the engine allows, the
static middleware's output is exactly the inner handler's output (response
or error alike, nothing logged), and the distributed middleware's poll, on
a ready inner future, yields exactly the inner future's output. -/
theorem c3_allow_passthrough {ε β : Type} [Inhabited β] (req : Request)
    (eng : String → String → String → Except String Bool) (st : DistState)
    (innerFut : Nat → Poll (Except ε (Response β))) (out : Except ε (Response β)) :
    (eng (specSubject req) req.uriPath req.method = Except.ok true →
      ∀ inner : Request → Except ε (Response β),
        enforce inner req eng = (inner req, [])) ∧
    (st.writerHeld = false →
      st.engine (specSubject req) req.uriPath req.method = Except.ok true →
      innerFut 0 = Poll.ready out →
      (pollResponseFuture st innerFut (DistributeRoleMapping.call req).1).1 =
        Poll.ready out) := by
  constructor
  · intro h inner
    cases hx : req.extensions <;>
      simp only [specSubject, hx, Option.getD_some, Option.getD_none] at h <;>
      simp [enforce, hx, h]
  · intro hw h hf
    cases hx : req.extensions <;>
      simp only [specSubject, hx, Option.getD_some, Option.getD_none] at h <;>
      simp [pollResponseFuture, DistributeRoleMapping.call, hx, hw, h, hf]

/-- C3 (witness): at the concrete allowed request GET /books with identity
alice, the static middleware returns exactly the inner handler's output
and the distributed poll yields exactly the ready inner output. -/
theorem c3_allow_passthrough_witness :
    enforce (fun _ => Except.error "inner boom")
        { extensions := some "alice", uriPath := "/books", method := "GET" }
        (fun sub obj act =>
          Except.ok (sub = "alice" ∧ obj = "/books" ∧ act = "GET" : Bool)) =
      ((Except.error "inner boom" : Except String (Response Nat)), []) ∧
    (pollResponseFuture
        (DistState.mk false fun sub obj act =>
          Except.ok (sub = "alice" ∧ obj = "/books" ∧ act = "GET" : Bool))
        (fun _ => (Poll.ready (Except.ok { status := 200, body := (7 : Nat) }) :
          Poll (Except String (Response Nat))))
        (DistributeRoleMapping.call
          { extensions := some "alice", uriPath := "/books", method := "GET" }).1).1 =
      Poll.ready (Except.ok { status := 200, body := 7 }) := by
  constructor
  · exact (c3_allow_passthrough
      { extensions := some "alice", uriPath := "/books", method := "GET" }
      (fun sub obj act =>
        Except.ok (sub = "alice" ∧ obj = "/books" ∧ act = "GET" : Bool))
      (DistState.mk false fun _ _ _ => Except.ok true)
      (fun _ => (Poll.pending : Poll (Except String (Response Nat))))
      (Except.error "inner boom")).1 (by decide) _
  · exact (c3_allow_passthrough
      { extensions := some "alice", uriPath := "/books", method := "GET" }
      (fun _ _ _ => Except.ok true)
      (DistState.mk false fun sub obj act =>
        Except.ok (sub = "alice" ∧ obj = "/books" ∧ act = "GET" : Bool))
      (fun _ => (Poll.ready (Except.ok { status := 200, body := (7 : Nat) }) :
        Poll (Except String (Response Nat))))
      (Except.ok { status := 200, body := 7 })).2 rfl (by decide) rfl

/-- C4: the synchronizer applies mutation events serially in source order:
its trace brackets, for each event in sequence, exactly the engine operation
dispatched for that event's variant between one write-guard acquisition and
release (NIL dispatches none), the applied operations are exactly the
per-event dispatches in source order with no reordering or duplication, and
the final engine state is the left fold of those operations from the
initial state, so the mutation for an earlier event is always applied
before the mutation for a later one. -/
theorem c4_serial_order {σ : Type} (apply : σ → EngineOp → σ × Except String Bool)
    (s : σ) (events : List EventData) :
    opsOf (listenSource apply s events).trace = events.filterMap dispatch ∧
    (listenSource apply s events).final =
      (events.filterMap dispatch).foldl (fun t op => (apply t op).1) s ∧
    (listenSource apply s events).trace =
      events.flatMap fun d =>
        SyncEvent.acquireWrite ::
          (((dispatch d).toList.map SyncEvent.applyOp) ++ [SyncEvent.releaseWrite]) :=
  ⟨listenSource_ops apply s events, listenSource_final apply s events,
    listenSource_trace_eq apply s events⟩

/-- C5: an engine error while applying one event does not stop the
synchronizer loop: the error is logged (error-level entry at that event's
position) and the remaining events are still pulled and applied exactly as
dispatched, and the loop emits one log entry for every event of the source,
terminating only when the source sequence ends. -/
theorem c5_error_isolation {σ : Type} (apply : σ → EngineOp → σ × Except String Bool)
    (s : σ) (e : EventData) (rest : List EventData) (err : String)
    (h : (applyEvent apply s e).2 = Except.error err) :
    (listenSource apply s (e :: rest)).logs =
      LogEntry.errHandleEvent err ::
        (listenSource apply (applyEvent apply s e).1 rest).logs ∧
    opsOf (listenSource apply s (e :: rest)).trace =
      (dispatch e).toList ++ rest.filterMap dispatch ∧
    ∀ (events : List EventData) (t : σ),
      (listenSource apply t events).logs.length = events.length := by
  refine ⟨?_, ?_, fun events t => listenSource_logs_length apply t events⟩
  · simp [listenSource, logResult, h]
  · have hrest := listenSource_ops apply (applyEvent apply s e).1 rest
    cases hd : dispatch e <;>
      simpa [listenSource, opsOf, List.filterMap_cons, List.filterMap_append, hd] using hrest

/-- C5 (witness): with a concrete engine whose mutation always fails, the
error on the first event is logged and the second event's operation is
still applied. -/
theorem c5_error_isolation_witness :
    (listenSource (fun (s : Nat) _ => (s, Except.error "boom")) 0
        [EventData.AddPolicy ["alice", "/books", "GET"],
         EventData.RemovePolicy ["bob", "/admin", "POST"]]).logs.head? =
      some (LogEntry.errHandleEvent "boom") ∧
    opsOf (listenSource (fun (s : Nat) _ => (s, Except.error "boom")) 0
        [EventData.AddPolicy ["alice", "/books", "GET"],
         EventData.RemovePolicy ["bob", "/admin", "POST"]]).trace =
      [EngineOp.addPolicy ["alice", "/books", "GET"],
       EngineOp.removePolicy ["bob", "/admin", "POST"]] := by
  have h := c5_error_isolation (fun (s : Nat) _ => (s, Except.error "boom")) 0
    (EventData.AddPolicy ["alice", "/books", "GET"])
    [EventData.RemovePolicy ["bob", "/admin", "POST"]] "boom" rfl
  exact ⟨by rw [h.1]; rfl, by rw [h.2.1]; rfl⟩

/-- C7: for every request on which the engine's enforce call fails, both
variants produce the 500 response with a default body: the static variant's
output is the same for every inner handler, carries the warn log entry and
is an Ok response (the engine error is never the middleware's typed error);
the distributed variant's poll short-circuits to the 500 response with the
warn event in its trace, never polling the inner future. -/
theorem c7_engine_error_500 {ε β : Type} [Inhabited β] (req : Request)
    (eng : String → String → String → Except String Bool) (st : DistState)
    (innerFut : Nat → Poll (Except ε (Response β))) (err : String) :
    (eng (specSubject req) req.uriPath req.method = Except.error err →
      ∀ inner : Request → Except ε (Response β),
        enforce inner req eng =
          (Except.ok { status := 500, body := default },
            [LogEntry.warnEnforcerAbnormal err])) ∧
    (st.writerHeld = false →
      st.engine (specSubject req) req.uriPath req.method = Except.error err →
      pollResponseFuture st innerFut (DistributeRoleMapping.call req).1 =
        (Poll.ready (Except.ok { status := 500, body := default }),
          (DistributeRoleMapping.call req).1,
          [PollEvent.acquireRead,
           PollEvent.enforceCall (specSubject req) req.uriPath req.method,
           PollEvent.warnAbnormal err, PollEvent.releaseRead])) := by
  constructor
  · intro h inner
    cases hx : req.extensions <;>
      simp only [specSubject, hx, Option.getD_some, Option.getD_none] at h <;>
      simp [enforce, hx, h]
  · intro hw h
    cases hx : req.extensions <;>
      simp only [specSubject, hx, Option.getD_some, Option.getD_none] at h <;>
      simp [pollResponseFuture, DistributeRoleMapping.call, specSubject, hx, hw, h]

/-- C7 (witness): at a concrete request with identity bob and an engine that
always fails, the static middleware returns the 500 response with default
body and logs the warn entry, for a concrete inner handler. -/
theorem c7_engine_error_500_witness :
    enforce (fun _ => Except.ok { status := 200, body := (7 : Nat) })
        { extensions := some "bob", uriPath := "/admin", method := "POST" }
        (fun _ _ _ => Except.error "model not loaded") =
      ((Except.ok { status := 500, body := 0 } : Except String (Response Nat)),
        [LogEntry.warnEnforcerAbnormal "model not loaded"]) :=
  (c7_engine_error_500 { extensions := some "bob", uriPath := "/admin", method := "POST" }
      (fun _ _ _ => Except.error "model not loaded")
      (DistState.mk false fun _ _ _ => Except.ok true)
      (fun _ => (Poll.pending : Poll (Except String (Response Nat))))
      "model not loaded").1 rfl _

/-- C8: the enforcement triple both variants consult the engine with is
subject = the identity attached to the request extensions or the empty
string when absent, object = the request URI path, action = the request
method token: the distributed call stores exactly that triple as its
arguments, and the static middleware's entire outcome is the dispatch on
the engine's value at exactly that triple. -/
theorem c8_triple_derivation {ε β : Type} [Inhabited β] (req : Request)
    (eng : String → String → String → Except String Bool)
    (inner : Request → Except ε (Response β)) :
    (DistributeRoleMapping.call req).1.arguments =
      (specSubject req, req.uriPath, req.method) ∧
    enforce inner req eng =
      (match eng (specSubject req) req.uriPath req.method with
       | Except.ok true => (inner req, [])
       | Except.ok false => (Except.ok { status := 403, body := default }, [])
       | Except.error err =>
           (Except.ok { status := 500, body := default },
             [LogEntry.warnEnforcerAbnormal err])) := by
  constructor
  · cases hx : req.extensions <;> simp [DistributeRoleMapping.call, specSubject, hx]
  · cases hx : req.extensions <;> simp [enforce, specSubject, hx]

/-- C9: the distributed enforcement decision is recomputed on every poll:
whenever read acquisition succeeds, the poll trace begins with the guard
acquisition followed by an enforce call at the stored arguments — before
any poll of the inner future — and contains exactly one enforce call; and
in a concrete run whose inner future stays pending while the engine flips
from allow to deny between polls, enforce is evaluated on both polls and
the future resolves to the 403 response after the inner future has already
been polled. -/
theorem c9_reenforce_each_poll :
    (∀ {ε β : Type} [Inhabited β] (st : DistState)
        (innerFut : Nat → Poll (Except ε (Response β))) (fs : FutState),
      st.writerHeld = false →
        (pollTrace st innerFut fs).take 2 =
            [PollEvent.acquireRead,
             PollEvent.enforceCall fs.arguments.1 fs.arguments.2.1 fs.arguments.2.2] ∧
          (pollTrace st innerFut fs).countP PollEvent.isEnforceCall = 1) ∧
    runPolls (fun _ => (Poll.pending : Poll (Except String (Response Nat))))
        [DistState.mk false fun _ _ _ => Except.ok true,
         DistState.mk false fun _ _ _ => Except.ok false]
        { arguments := ("alice", "/books", "GET"), innerPolled := 0 } =
      ([PollEvent.acquireRead, PollEvent.enforceCall "alice" "/books" "GET",
        PollEvent.innerPoll, PollEvent.releaseRead,
        PollEvent.acquireRead, PollEvent.enforceCall "alice" "/books" "GET",
        PollEvent.releaseRead],
       some (Except.ok { status := 403, body := 0 })) := by
  constructor
  · intro ε β _ st innerFut fs hw
    unfold pollTrace pollResponseFuture
    simp only [hw, if_neg, Bool.false_eq_true, not_false_iff]
    cases st.engine fs.arguments.1 fs.arguments.2.1 fs.arguments.2.2 with
    | ok b =>
      cases b with
      | true =>
        cases innerFut fs.innerPolled <;>
          simp [List.countP_cons, PollEvent.isEnforceCall]
      | false => simp [List.countP_cons, PollEvent.isEnforceCall]
    | error err => simp [List.countP_cons, PollEvent.isEnforceCall]
  · decide

/-- C9 (witness): at a concrete poll with the lock free the trace contains
exactly one enforce call. -/
theorem c9_reenforce_each_poll_witness :
    (pollTrace (DistState.mk false fun _ _ _ => Except.ok true)
        (fun _ => (Poll.pending : Poll (Except String (Response Nat))))
        { arguments := ("alice", "/books", "GET"), innerPolled := 0 }).countP
        PollEvent.isEnforceCall = 1 :=
  (c9_reenforce_each_poll.1 (DistState.mk false fun _ _ _ => Except.ok true)
      (fun _ => (Poll.pending : Poll (Except String (Response Nat))))
      { arguments := ("alice", "/books", "GET"), innerPolled := 0 } rfl).2

/-- C6 (counterexample): for the queue adapter the claim that every
received transport message yields exactly one sequence item is false at a
concrete input: two received messages, the first with an absent content
body, yield zero sequence items (the stream ends at the first message),
even with a decoder that succeeds on every payload. -/
theorem c6_counterexample :
    amqpDrain (fun _ : List Nat => some (EventData.AddPolicy ["alice", "/books", "GET"]))
        [{ content := none }, { content := some [91] }] = ([] : List EventData) ∧
    ([{ content := none }, { content := some [91] }] :
        List (ConsumerMessage (List Nat))).length = 2 := by
  constructor
  · rfl
  · rfl

/-- Decoding with the NIL fallback honours the decoder: NIL on failure,
the decoded event on success. -/
theorem decodeOrNil_spec {π : Type} (decode : π → Option EventData) (c : π) :
    (decode c = none → decodeOrNil decode c = EventData.NIL) ∧
    ∀ ev, decode c = some ev → decodeOrNil decode c = ev := by
  cases hd : decode c with
  | none =>
    refine ⟨fun _ => by simp [decodeOrNil, hd], fun ev hev => ?_⟩
    simp at hev
  | some ev =>
    refine ⟨fun hn => ?_, fun ev2 hev => ?_⟩
    · simp at hn
    · cases hev
      simp [decodeOrNil, hd]

/-- C6 (amended): the pub/sub adapter yields exactly one sequence item per
received message — the decoded event when the payload decodes, the NIL item
when it does not, without terminating the sequence, so a well-formed payload
after a malformed one still decodes to its event; the queue adapter gives
the same guarantee for every received message whose content body is
present. -/
theorem c6_one_item_per_message {π : Type} (decode : π → Option EventData)
    (msgs : List (RedisMsg π)) (qmsgs : List (ConsumerMessage π)) :
    List.Forall₂ (fun (m : RedisMsg π) (e : EventData) =>
        (decode m.payload = none → e = EventData.NIL) ∧
          ∀ ev, decode m.payload = some ev → e = ev)
      msgs (redis_source decode msgs) ∧
    ((∀ m ∈ qmsgs, (ConsumerMessage.content m).isSome = true) →
      List.Forall₂ (fun (m : ConsumerMessage π) (e : EventData) =>
          ∀ c, m.content = some c →
            (decode c = none → e = EventData.NIL) ∧ ∀ ev, decode c = some ev → e = ev)
        qmsgs (amqpDrain decode qmsgs)) := by
  constructor
  · induction msgs with
    | nil => exact List.Forall₂.nil
    | cons m rest ih =>
      exact List.Forall₂.cons (decodeOrNil_spec decode m.payload) ih
  · induction qmsgs with
    | nil => exact fun _ => List.Forall₂.nil
    | cons m rest ih =>
      intro hall
      have hm : (ConsumerMessage.content m).isSome = true := hall m (by simp)
      cases hc : m.content with
      | none => rw [hc] at hm; cases hm
      | some c =>
        have hstep : amqpDrain decode (m :: rest) =
            decodeOrNil decode c :: amqpDrain decode rest := by
          simp [amqpDrain, AMQPSource.pollNext, hc]
        rw [hstep]
        refine List.Forall₂.cons ?_ (ih fun m2 hm2 => hall m2 (by simp [hm2]))
        intro c2 hc2
        rw [hc] at hc2
        cases hc2
        exact decodeOrNil_spec decode c

/-- C6 (witness for the amended theorem): with a concrete decoder that only
understands the payload for byte 1, both adapters' two-message sequences
satisfy the per-message correspondence (malformed payload related to NIL,
the following well-formed one to its decoded event). -/
theorem c6_one_item_per_message_witness :
    List.Forall₂ (fun (m : RedisMsg (List Nat)) (e : EventData) =>
        ((if m.payload = [1] then
            some (EventData.AddPolicy ["alice", "/books", "GET"]) else none) = none →
          e = EventData.NIL) ∧
          ∀ ev, (if m.payload = [1] then
              some (EventData.AddPolicy ["alice", "/books", "GET"]) else none) = some ev →
            e = ev)
      [{ payload := [9] }, { payload := [1] }]
      (redis_source (fun c : List Nat =>
          if c = [1] then some (EventData.AddPolicy ["alice", "/books", "GET"]) else none)
        [{ payload := [9] }, { payload := [1] }]) ∧
    List.Forall₂ (fun (m : ConsumerMessage (List Nat)) (e : EventData) =>
        ∀ c, m.content = some c →
          ((if c = [1] then
              some (EventData.AddPolicy ["alice", "/books", "GET"]) else none) = none →
            e = EventData.NIL) ∧
            ∀ ev, (if c = [1] then
                some (EventData.AddPolicy ["alice", "/books", "GET"]) else none) = some ev →
              e = ev)
      [{ content := some [9] }, { content := some [1] }]
      (amqpDrain (fun c : List Nat =>
          if c = [1] then some (EventData.AddPolicy ["alice", "/books", "GET"]) else none)
        [{ content := some [9] }, { content := some [1] }]) :=
  ⟨(c6_one_item_per_message (fun c : List Nat =>
        if c = [1] then some (EventData.AddPolicy ["alice", "/books", "GET"]) else none)
      [{ payload := [9] }, { payload := [1] }]
      [{ content := some [9] }, { content := some [1] }]).1,
    (c6_one_item_per_message (fun c : List Nat =>
        if c = [1] then some (EventData.AddPolicy ["alice", "/books", "GET"]) else none)
      [{ payload := [9] }, { payload := [1] }]
      [{ content := some [9] }, { content := some [1] }]).2 (by decide)⟩

/-- C10: for the queue adapter, a received message whose content body is
absent makes poll_next return Ready(None), ending the event sequence even
though the underlying consumer channel is still open (further messages
remain undelivered) and without yielding a NIL item. -/
theorem c10_none_content_ends_stream {π : Type} (decode : π → Option EventData)
    (m : ConsumerMessage π) (rest : List (ConsumerMessage π))
    (h : m.content = none) :
    AMQPSource.pollNext decode (some m) = none ∧
    amqpDrain decode (m :: rest) = [] := by
  constructor
  · simp [AMQPSource.pollNext, h]
  · simp [amqpDrain, AMQPSource.pollNext, h]

/-- C10 (witness): at a concrete content-free message followed by a
decodable one, poll_next ends the stream and the drained sequence is
empty. -/
theorem c10_none_content_ends_stream_witness :
    AMQPSource.pollNext (fun _ : List Nat => some EventData.NIL)
        (some { content := none }) = none ∧
    amqpDrain (fun _ : List Nat => some EventData.NIL)
        [{ content := none }, { content := some [1] }] = [] :=
  c10_none_content_ends_stream (fun _ : List Nat => some EventData.NIL)
    { content := none } [{ content := some [1] }] rfl

end CommonRs
